import Mathlib

/-!
# Timed animation and audio-scheduling engine of `app.js`

A shallow embedding of the engine in `src/app.js`: the easing helpers, the
schedule that `buildAudio` writes into the audio graph, the particle update of
`drawBackground`, the time-keyed opacities of `drawEye` and `drawTimeline`, and
the session controller `generate` with its render callback `frame`.

Numbers are exact rationals (`ℚ`): JavaScript doubles are read as the
rationals they are written as. Timestamps are in milliseconds, elapsed time
in seconds, as in the source.
-/

namespace App

/-! ## Constants (app.js 2-5) -/

def WIDTH : ℚ := 1280
def HEIGHT : ℚ := 720
def FPS : ℚ := 60
def DURATION_SEC : ℚ := 20

/-! ## Timing and easing helpers (app.js 26-30) -/

/-- Helper `clamp(v, a, b) = Math.max(a, Math.min(b, v))`. -/
def clamp (v a b : ℚ) : ℚ := max a (min b v)

/-- Helper `lerp(a, b, t) = a + (b - a) * t`. -/
def lerp (a b t : ℚ) : ℚ := a + (b - a) * t

/-- Helper `easeInOutCubic(t) = t<0.5 ? 4*t*t*t : 1 - Math.pow(-2*t+2,3)/2`. -/
def easeInOutCubic (t : ℚ) : ℚ :=
  if t < 1/2 then 4 * t * t * t else 1 - (-2 * t + 2) ^ 3 / 2

/-- Helper `easeOutCubic(t) = 1 - Math.pow(1-t, 3)`. -/
def easeOutCubic (t : ℚ) : ℚ := 1 - (1 - t) ^ 3

/-- Helper `map(v, inMin, inMax, outMin, outMax)`:
`outMin + (outMax - outMin) * ((v - inMin)/(inMax - inMin))`. -/
def map (v inMin inMax outMin outMax : ℚ) : ℚ :=
  outMin + (outMax - outMin) * ((v - inMin) / (inMax - inMin))

/-! ## Time-keyed opacities of the scene renderer -/

/-- The local `subtitleAlpha` of `drawEye` (app.js 220). -/
def subtitleAlpha (t : ℚ) : ℚ := clamp (map t 3 6 0 1) 0 1

/-- The `globalAlpha` under which `drawEye` paints the subtitle (app.js 221). -/
def subtitleOpacity (t : ℚ) : ℚ := easeInOutCubic (subtitleAlpha t)

/-- The outro tag of `drawTimeline` (app.js 250-262): `none` when the guard
`t > 14.2` fails and nothing is painted, otherwise the `globalAlpha` `a` under
which the two caption lines are painted. -/
def outroTag (t : ℚ) : Option ℚ :=
  if t > 142/10 then some (easeOutCubic (clamp (map t (142/10) (165/10) 0 1) 0 1))
  else none

/-- Opacity with which the outro caption reaches the frame: `0` when the
caption is not painted. -/
def outroOpacity (t : ℚ) : ℚ := (outroTag t).getD 0

/-! ## Audio composer (app.js 35-128) -/

/-- The two automation calls `buildAudio` uses on an `AudioParam`. -/
inductive AutomationKind
  | setValue
  | expRamp
deriving DecidableEq, Repr

/-- One scheduled automation event: `setValueAtTime(value, time)` or
`exponentialRampToValueAtTime(value, time)`. -/
structure AutoEvent where
  kind : AutomationKind
  value : ℚ
  time : ℚ
deriving DecidableEq

/-- An `AudioParam`: its intrinsic `.value` and the automation events
scheduled on it, in scheduling order. -/
structure AudioParam where
  value : ℚ
  events : List AutoEvent
deriving DecidableEq

/-- The call `param.setValueAtTime(v, T)`: appends a set event. -/
def AudioParam.setValueAtTime (p : AudioParam) (v T : ℚ) : AudioParam :=
  { p with events := p.events ++ [⟨.setValue, v, T⟩] }

/-- The call `param.exponentialRampToValueAtTime(v, T)`: appends a ramp event. -/
def AudioParam.exponentialRampToValueAtTime (p : AudioParam) (v T : ℚ) : AudioParam :=
  { p with events := p.events ++ [⟨.expRamp, v, T⟩] }

/-- The call `param.cancelScheduledValues(T)`: removes every scheduled event whose
time is greater than or equal to `T`. -/
def AudioParam.cancelScheduledValues (p : AudioParam) (T : ℚ) : AudioParam :=
  { p with events := p.events.filter (fun e => decide (e.time < T)) }

/-- An oscillator node: `type = sine`, its detune in cents and its
frequency parameter (440 Hz by default). -/
structure Oscillator where
  detune : ℚ
  frequency : AudioParam
deriving DecidableEq

/-- The object `createVoice` returns: `{ gain: voiceGain, osc1, osc2, osc3 }`. -/
structure Voice where
  gain : AudioParam
  osc1 : Oscillator
  osc2 : Oscillator
  osc3 : Oscillator
deriving DecidableEq

/-- The function `createVoice(detuneCents)` (app.js 62-78). -/
def createVoice (detuneCents : ℚ) : Voice :=
  let osc : Oscillator := { detune := detuneCents, frequency := ⟨440, []⟩ }
  { gain := ⟨0, []⟩, osc1 := osc, osc2 := osc, osc3 := osc }

/-- The chord table of `buildAudio` (app.js 51-56). -/
def chords : List (ℚ × ℚ × ℚ) :=
  [ (29366/100, 34923/100, 440),
    (23308/100, 31113/100, 392),
    (17461/100, 26163/100, 34923/100),
    (26163/100, 32963/100, 392) ]

/-- The constant `measure = 4.0`. -/
def measure : ℚ := 4

/-- The loop bound `numMeasures = Math.ceil(durationSec / measure)`. -/
def numMeasures (durationSec : ℚ) : ℕ := Int.toNat ⌈durationSec / measure⌉

/-- The chord of measure `m`, `chords[m % chords.length]`. -/
def chordAt (m : ℕ) : ℚ × ℚ × ℚ :=
  chords.get ⟨m % chords.length, Nat.mod_lt m (by decide)⟩

/-- The factor `idx === 0 ? 0.5 : idx === 2 ? 2.0 : 1` (app.js 94). -/
def octave (idx : ℕ) : ℚ := if idx = 0 then 1/2 else if idx = 2 then 2 else 1

/-- The body of `voices.forEach((v, idx) => ...)` for the measure that
starts at `start` with chord `chord` (app.js 94-105). -/
def scheduleVoice (start : ℚ) (chord : ℚ × ℚ × ℚ) (idx : ℕ) (v : Voice) : Voice :=
  let f1 := chord.1 * octave idx
  let f2 := chord.2.1 * octave idx
  let f3 := chord.2.2 * octave idx
  let g := v.gain.cancelScheduledValues start
  let g := g.setValueAtTime (1/10000) start
  let g := g.exponentialRampToValueAtTime (28/100) (start + 1)
  let g := g.exponentialRampToValueAtTime (8/100) (start + 32/10)
  let g := g.exponentialRampToValueAtTime (1/10000) (start + measure)
  { gain := g,
    osc1 := { v.osc1 with frequency := v.osc1.frequency.setValueAtTime f1 start },
    osc2 := { v.osc2 with frequency := v.osc2.frequency.setValueAtTime f2 start },
    osc3 := { v.osc3 with frequency := v.osc3.frequency.setValueAtTime f3 start } }

/-- One iteration of the loop over measures (app.js 89-107). -/
def scheduleMeasure (now : ℚ) (voices : List Voice) (m : ℕ) : List Voice :=
  let start := now + m * measure
  let chord := chordAt m
  voices.mapIdx (fun idx v => scheduleVoice start chord idx v)

/-- The kind of a media stream track. -/
inductive TrackKind
  | video
  | audio
deriving DecidableEq, Repr

/-- A media stream track. -/
structure Track where
  kind : TrackKind
  label : String
deriving DecidableEq, Repr

/-- The noise bed (app.js 110-125): gain, band-pass centre and its start
and stop times. -/
structure Noise where
  gain : ℚ
  bandpass : ℚ
  startAt : ℚ
  stopAt : ℚ
deriving DecidableEq

/-- What `buildAudio` has built when it returns `{ audioCtx, stream }`: the
automation of the master gain, the three voices, the noise bed, whether the
context has been closed, and the tracks of `dest.stream`. -/
structure Audio where
  master : AudioParam
  lowpass : ℚ
  voices : List Voice
  noise : Noise
  closed : Bool
  stream : List Track
deriving DecidableEq

/-- The function `buildAudio(durationSec)` on a host whose audio context reports
`currentTime` (app.js 35-128). -/
def buildAudio (durationSec currentTime : ℚ) : Audio :=
  let master : AudioParam := ⟨28/100, []⟩
  let voices := [createVoice (-4), createVoice 0, createVoice 5]
  let now := currentTime + 5/100
  let master := master.setValueAtTime (1/10000) now
  let master := master.exponentialRampToValueAtTime (28/100) (now + 15/10)
  let master := master.exponentialRampToValueAtTime (1/10000) (now + durationSec - 8/10)
  let voices := (List.range (numMeasures durationSec)).foldl (scheduleMeasure now) voices
  { master := master,
    lowpass := 1800,
    voices := voices,
    noise := { gain := 5/100, bandpass := 600, startAt := now, stopAt := now + durationSec },
    closed := false,
    stream := [⟨.audio, "dest"⟩] }



/-! ### The schedule of one voice -/

/-- What the loop over measures does to the voice with index `idx`. -/
def voiceStep (now : ℚ) (idx : ℕ) (v : Voice) (m : ℕ) : Voice :=
  scheduleVoice (now + m * measure) (chordAt m) idx v

/-- The voice with index `idx` after the first `n` measures have been scheduled. -/
def voiceAfter (now : ℚ) (idx : ℕ) (v : Voice) (n : ℕ) : Voice :=
  (List.range n).foldl (voiceStep now idx) v

/-- The first three events of the swell of measure `m`: the set at the measure
start and the ramps to 0.28 and to 0.08. -/
def swellHead (now : ℚ) (m : ℕ) : List AutoEvent :=
  [ ⟨.setValue, 1/10000, now + m * measure⟩,
    ⟨.expRamp, 28/100, now + m * measure + 1⟩,
    ⟨.expRamp, 8/100, now + m * measure + 32/10⟩ ]

/-- The decay that ends the swell of measure `m`. -/
def swellDecay (now : ℚ) (m : ℕ) : AutoEvent :=
  ⟨.expRamp, 1/10000, now + m * measure + measure⟩

/-- The swell heads of the measures below `n`, in order. -/
def swellHeads (now : ℚ) : ℕ → List AutoEvent
  | 0 => []
  | n + 1 => swellHeads now n ++ swellHead now n

/-- The gain events of a voice once `n` measures have been scheduled: every
swell head, and the decay of the last measure only. -/
def gainSchedule (now : ℚ) : ℕ → List AutoEvent
  | 0 => []
  | n + 1 => swellHeads now (n + 1) ++ [swellDecay now n]

/-! ## Automation read-out

How the host audio engine reads an event list: an exponential ramp runs from
the previous event (its time and value) to its own target; at the time of an
event the parameter has that event's value. -/

/-- One exponential ramp of an automation, from the previous event to the
ramp event itself. -/
structure RampSpan where
  fromTime : ℚ
  fromValue : ℚ
  toTime : ℚ
  toValue : ℚ
deriving DecidableEq

/-- The exponential ramps of an event list, in order. -/
def rampSpans : List AutoEvent → List RampSpan
  | [] => []
  | [_] => []
  | e₁ :: e₂ :: rest =>
    if e₂.kind = .expRamp then
      ⟨e₁.time, e₁.value, e₂.time, e₂.value⟩ :: rampSpans (e₂ :: rest)
    else rampSpans (e₂ :: rest)

/-- The value of the parameter at a time `τ` at which an event is scheduled:
the value of the last event scheduled at `τ`; `none` when no event is. -/
def valueAtEvent (evs : List AutoEvent) (τ : ℚ) : Option ℚ :=
  ((evs.filter (fun e => decide (e.time = τ))).getLast?).map AutoEvent.value

/-! ## Particles of `drawBackground` (app.js 131-137, 150-154) -/

/-- A particle `{ x, y, r, a, s }`. -/
structure Particle where
  x : ℚ
  y : ℚ
  r : ℚ
  a : ℚ
  s : ℚ
deriving DecidableEq

/-- The update of one particle in `particles.forEach` (app.js 151-154);
`cos` and `sin` stand for the host's `Math.cos` and `Math.sin`. -/
def stepParticle (cos sin : ℚ → ℚ) (p : Particle) : Particle :=
  let x := p.x + cos p.a * p.s * (4/10)
  let y := p.y + sin p.a * p.s * (4/10)
  let x := if x < -10 then WIDTH + 10 else x
  let x := if x > WIDTH + 10 then -10 else x
  let y := if y < -10 then HEIGHT + 10 else y
  let y := if y > HEIGHT + 10 then -10 else y
  { p with x := x, y := y }

/-- The particle pass of `drawBackground`: every particle is updated once. -/
def stepParticles (cos sin : ℚ → ℚ) (ps : List Particle) : List Particle :=
  ps.map (stepParticle cos sin)

/-! ## Capture / session controller (app.js 7-12, 265-344) -/

/-- The state of a `MediaRecorder`. -/
inductive RecorderState
  | inactive
  | recording
deriving DecidableEq, Repr

/-- The capture sink: the stream it records, its mime type and its state. -/
structure MediaRecorder where
  stream : List Track
  mimeType : String
  state : RecorderState
deriving DecidableEq

/-- The module-level `state` object (app.js 7-12); a chunk is a blob, kept
as its size. -/
structure State where
  chunks : List ℕ
  recorder : Option MediaRecorder
  recording : Bool
  startTime : ℚ
deriving DecidableEq

/-- The text of `statusLabel`. -/
inductive Status
  | idle
  | initializing
  | audioFailed
  | rendering (percent : ℚ)
  | finalizing
deriving DecidableEq

/-- What the controller reads from its host when `generate` runs: the
`currentTime` of a fresh audio context (`none` when constructing one throws),
the tracks of `canvas.captureStream(FPS)`, and `performance.now()`. -/
structure Host where
  audioTime : Option ℚ
  canvasStream : List Track
  now : ℚ

/-- The session state together with everything `generate`, `frame` and the
recorder callbacks act on. A pending `requestAnimationFrame(frame)` is kept as
the `start` its `frame` closure captured; a pending `setTimeout` as its delay;
`frames` lists the arguments of the `drawTimeline` calls made so far. `audio`
is the local `audio` of the latest `generate()` call, the one the `onstop`
handler of `state.recorder` captured. `stopEvents` counts the `stop` events the
sinks have raised; `stopQueue` holds those not yet delivered, each as the
`audio` its handler captured; `closedAudio` lists the audio contexts closed. -/
structure World where
  state : State
  status : Status
  progress : ℚ
  audio : Option Audio
  audioBuilds : ℕ
  recorders : ℕ
  rafQueue : List ℚ
  timeouts : List ℚ
  frames : List ℚ
  stops : ℕ
  stopEvents : ℕ
  stopQueue : List (Option Audio)
  closedAudio : List Audio
  artifacts : List (List ℕ)
  overlayShown : Bool
  canvasVisible : Bool
  videoHidden : Bool
  downloadHidden : Bool
  replayHidden : Bool
deriving DecidableEq

/-- The call `buildAudio(durationSec)` as the computation `generate` calls inside
`try`: it throws when the host has no audio context to construct. -/
def tryBuildAudio (audioTime : Option ℚ) (durationSec : ℚ) : Except String Audio :=
  match audioTime with
  | none => .error "AudioContext is not a constructor"
  | some currentTime => .ok (buildAudio durationSec currentTime)

/-- The video tracks of a stream, `videoStream.getVideoTracks()`. -/
def getVideoTracks (s : List Track) : List Track :=
  s.filter (fun tr => decide (tr.kind = .video))

/-- The audio tracks of a stream, `audio.stream.getAudioTracks()`. -/
def getAudioTracks (s : List Track) : List Track :=
  s.filter (fun tr => decide (tr.kind = .audio))

/-- The function `generate()` (app.js 265-344), its first
`requestAnimationFrame(frame)` included. -/
def generate (host : Host) (w : World) : World :=
  if w.state.recording then w
  else
    let w := { w with status := .initializing }
    let (audio, w) :=
      match tryBuildAudio host.audioTime DURATION_SEC with
      | .ok a => (some a, { w with audioBuilds := w.audioBuilds + 1 })
      | .error _ => (none, { w with status := .audioFailed })
    let mixed := getVideoTracks host.canvasStream
    let mixed :=
      match audio with
      | some a => mixed ++ getAudioTracks a.stream
      | none => mixed
    let recorder : MediaRecorder :=
      { stream := mixed, mimeType := "video/webm;codecs=vp9,opus", state := .inactive }
    let recorder := { recorder with state := .recording }
    let start := host.now
    { w with
      state := { chunks := [], recorder := some recorder, recording := true,
                 startTime := start },
      audio := audio,
      recorders := w.recorders + 1,
      overlayShown := true,
      canvasVisible := true,
      videoHidden := true,
      downloadHidden := true,
      replayHidden := true,
      rafQueue := w.rafQueue ++ [start] }

/-- The handler `state.recorder.ondataavailable` (app.js 289). -/
def ondataavailable (size : ℕ) (w : World) : World :=
  if size ≠ 0 then { w with state := { w.state with chunks := w.state.chunks ++ [size] } }
  else w

/-- The handler `state.recorder.onstop` (app.js 290-304) of the recorder
whose `generate()` call built `audio`: the blob is assembled from the chunks
`state` holds when the handler runs, and the audio context that call captured
is closed unless it is closed already. -/
def onstop (audio : Option Audio) (w : World) : World :=
  { w with
    artifacts := w.artifacts ++ [w.state.chunks],
    downloadHidden := false,
    videoHidden := false,
    overlayShown := false,
    replayHidden := false,
    canvasVisible := false,
    closedAudio :=
      match audio with
      | some a => if a.closed then w.closedAudio else w.closedAudio ++ [a]
      | none => w.closedAudio }

/-- The callback `frame(now)` of the session started at `start`
(app.js 314-334). -/
def frame (start now : ℚ) (w : World) : World :=
  let t := (now - start) / 1000
  let p := clamp (t / DURATION_SEC) 0 1
  let w := { w with
    progress := p * 100,
    status := if p < 1 then .rendering (p * 100) else .finalizing,
    frames := w.frames ++ [t] }
  if t < DURATION_SEC then { w with rafQueue := w.rafQueue ++ [start] }
  else { w with timeouts := w.timeouts ++ [150] }

/-- The callback handed to `setTimeout` (app.js 329-332): `recorder.stop()`
under `try`, then `state.recording = false`. Stopping a recording sink makes it
inactive and queues its `stop` event, for the handler that captured the
`audio` built along with that sink; stopping any other throws, which the
`catch` swallows. -/
def stopTimeout (w : World) : World :=
  let w := { w with stops := w.stops + 1 }
  let w :=
    match w.state.recorder with
    | some r =>
      if r.state = RecorderState.recording then
        { w with
          state := { w.state with recorder := some { r with state := .inactive } },
          stopEvents := w.stopEvents + 1,
          stopQueue := w.stopQueue ++ [w.audio] }
      else w
    | none => w
  { w with state := { w.state with recording := false } }

/-- The host delivers frame callbacks: for each timestamp, the oldest
pending `requestAnimationFrame` callback runs; with none pending the render
loop is over. -/
def runFrames : List ℚ → World → World
  | [], w => w
  | now :: rest, w =>
    match w.rafQueue with
    | [] => w
    | start :: queue => runFrames rest (frame start now { w with rafQueue := queue })

/-- The host fires every pending timeout. -/
def fireTimeouts (w : World) : World :=
  w.timeouts.foldl (fun u _ => stopTimeout u) { w with timeouts := [] }

/-- The host delivers the oldest queued `stop` event to the `onstop`
handler it belongs to. -/
def dispatchStop (w : World) : World :=
  match w.stopQueue with
  | [] => w
  | audio :: queue => onstop audio { w with stopQueue := queue }

/-- The timestamp of tick `k` of a clock that starts at `start` and advances
by 1/60 s, in milliseconds. -/
def tickTime (start : ℚ) (k : ℕ) : ℚ := start + k * (1000 / 60)

/-- The first `n` ticks of that clock. -/
def ticks (start : ℚ) (k n : ℕ) : List ℚ := (List.range' k n).map (tickTime start)

/-- A page on which nothing has run yet. -/
def idleWorld : World :=
  { state := { chunks := [], recorder := none, recording := false, startTime := 0 },
    status := .idle, progress := 0, audio := none, audioBuilds := 0, recorders := 0,
    rafQueue := [], timeouts := [], frames := [], stops := 0, stopEvents := 0,
    stopQueue := [], closedAudio := [], artifacts := [], overlayShown := false, canvasVisible := true, videoHidden := true,
    downloadHidden := true, replayHidden := true }

/-- A host with an audio engine and a canvas stream of one video track. -/
def demoHost : Host :=
  { audioTime := some 0, canvasStream := [⟨.video, "canvas"⟩], now := 0 }

/-- A host on which constructing the audio context throws. -/
def silentHost : Host :=
  { audioTime := none, canvasStream := [⟨.video, "canvas"⟩], now := 0 }

/-! # Theorems -/

/-! ## Easing lemmas -/

theorem map_3_6 (t : ℚ) : map t 3 6 0 1 = (t - 3) / 3 := by
  unfold map; ring

theorem clamp_of_le_lo {v a b : ℚ} (hab : a ≤ b) (h : v ≤ a) : clamp v a b = a := by
  unfold clamp
  rw [min_eq_right (le_trans h hab)]
  exact max_eq_left h

theorem clamp_of_hi_le {v a b : ℚ} (hab : a ≤ b) (h : b ≤ v) : clamp v a b = b := by
  unfold clamp
  rw [min_eq_left h]
  exact max_eq_right hab

theorem clamp_of_mem {v a b : ℚ} (h1 : a ≤ v) (h2 : v ≤ b) : clamp v a b = v := by
  unfold clamp
  rw [min_eq_right h2]
  exact max_eq_right h1

theorem easeInOutCubic_zero : easeInOutCubic 0 = 0 := by
  unfold easeInOutCubic; norm_num

theorem easeInOutCubic_one : easeInOutCubic 1 = 1 := by
  unfold easeInOutCubic; norm_num

theorem easeOutCubic_one : easeOutCubic 1 = 1 := by
  unfold easeOutCubic; norm_num

theorem easeInOutCubic_strictMono {u v : ℚ} (hu : 0 ≤ u) (huv : u < v) (hv : v ≤ 1) :
    easeInOutCubic u < easeInOutCubic v := by
  unfold easeInOutCubic
  by_cases h1 : u < 1/2
  · by_cases h2 : v < 1/2
    · rw [if_pos h1, if_pos h2]
      have h3 : u ^ 3 < v ^ 3 := pow_lt_pow_left₀ huv hu (by norm_num)
      nlinarith [h3]
    · rw [if_pos h1, if_neg h2]
      have h3 : u ^ 3 < (1/2 : ℚ) ^ 3 := pow_lt_pow_left₀ h1 hu (by norm_num)
      have h4 : (-2 * v + 2) ^ 3 ≤ (1 : ℚ) ^ 3 :=
        pow_le_pow_left₀ (by linarith) (by linarith) 3
      nlinarith [h3, h4]
  · have h2 : ¬ v < 1/2 := by linarith
    rw [if_neg h1, if_neg h2]
    have h3 : (-2 * v + 2) ^ 3 < (-2 * u + 2) ^ 3 :=
      pow_lt_pow_left₀ (by linarith) (by linarith) (by norm_num)
    linarith

/-! ## Claims C1, C2 -/

/-- C1: the subtitle opacity `easeInOutCubic(clamp(map(t,3,6,0,1),0,1))` of
`drawEye` is exactly 0 for `t ≤ 3`, exactly 1 for `t ≥ 6`, and strictly
increasing in `t` on the interval `[3, 6]`. -/
theorem subtitleOpacity_profile :
    (∀ t : ℚ, t ≤ 3 → subtitleOpacity t = 0) ∧
    (∀ t : ℚ, 6 ≤ t → subtitleOpacity t = 1) ∧
    (∀ s t : ℚ, 3 ≤ s → s < t → t ≤ 6 → subtitleOpacity s < subtitleOpacity t) := by
  refine ⟨?_, ?_, ?_⟩
  · intro t ht
    unfold subtitleOpacity subtitleAlpha
    rw [map_3_6, clamp_of_le_lo (by norm_num) (by linarith : (t - 3) / 3 ≤ 0)]
    exact easeInOutCubic_zero
  · intro t ht
    unfold subtitleOpacity subtitleAlpha
    rw [map_3_6, clamp_of_hi_le (by norm_num) (by linarith : 1 ≤ (t - 3) / 3)]
    exact easeInOutCubic_one
  · intro s t hs hst ht
    unfold subtitleOpacity subtitleAlpha
    rw [map_3_6, map_3_6,
      clamp_of_mem (by linarith : (0:ℚ) ≤ (s - 3) / 3) (by linarith : (s - 3) / 3 ≤ 1),
      clamp_of_mem (by linarith : (0:ℚ) ≤ (t - 3) / 3) (by linarith : (t - 3) / 3 ≤ 1)]
    exact easeInOutCubic_strictMono (by linarith) (by linarith) (by linarith)

/-- C1 at `t = 2`, `t = 7` and between `t = 4` and `t = 5`. -/
theorem subtitleOpacity_profile_witness :
    subtitleOpacity 2 = 0 ∧ subtitleOpacity 7 = 1 ∧ subtitleOpacity 4 < subtitleOpacity 5 :=
  ⟨subtitleOpacity_profile.1 2 (by norm_num), subtitleOpacity_profile.2.1 7 (by norm_num),
   subtitleOpacity_profile.2.2 4 5 (by norm_num) (by norm_num) (by norm_num)⟩

/-- C2: the outro caption of `drawTimeline` is not painted at all for
`t ≤ 14.2`, so its opacity is exactly 0 there, and for `t ≥ 16.5` it is painted
with opacity exactly 1; whenever `t > 14.2` the opacity is
`easeOutCubic(clamp(map(t,14.2,16.5,0,1),0,1))`. -/
theorem outroOpacity_profile :
    (∀ t : ℚ, t ≤ 142/10 → outroTag t = none ∧ outroOpacity t = 0) ∧
    (∀ t : ℚ, 165/10 ≤ t → outroTag t = some 1 ∧ outroOpacity t = 1) ∧
    (∀ t : ℚ, 142/10 < t →
      outroOpacity t = easeOutCubic (clamp (map t (142/10) (165/10) 0 1) 0 1)) := by
  refine ⟨?_, ?_, ?_⟩
  · intro t ht
    have h : ¬ t > 142/10 := not_lt.mpr ht
    simp [outroOpacity, outroTag, h]
  · intro t ht
    have h : t > 142/10 := by linarith
    have hm : (1:ℚ) ≤ map t (142/10) (165/10) 0 1 := by
      unfold map
      rw [zero_add, sub_zero, one_mul, le_div_iff₀ (by norm_num)]
      linarith
    have hc : clamp (map t (142/10) (165/10) 0 1) 0 1 = 1 :=
      clamp_of_hi_le (by norm_num) hm
    simp [outroOpacity, outroTag, h, hc, easeOutCubic_one]
  · intro t ht
    simp [outroOpacity, outroTag, ht]

/-- C2 at the two thresholds themselves, `t = 14.2` and `t = 16.5`. -/
theorem outroOpacity_profile_witness :
    (outroTag (142/10) = none ∧ outroOpacity (142/10) = 0) ∧
    (outroTag (165/10) = some 1 ∧ outroOpacity (165/10) = 1) :=
  ⟨outroOpacity_profile.1 (142/10) (le_refl _), outroOpacity_profile.2.1 (165/10) (le_refl _)⟩

/-! ## Audio schedule lemmas -/

theorem foldl_scheduleMeasure (now : ℚ) (ms : List ℕ) (a b c : Voice) :
    ms.foldl (scheduleMeasure now) [a, b, c] =
      [ ms.foldl (voiceStep now 0) a, ms.foldl (voiceStep now 1) b,
        ms.foldl (voiceStep now 2) c ] := by
  induction ms generalizing a b c with
  | nil => rfl
  | cons m ms ih =>
    simp only [List.foldl_cons]
    have h : scheduleMeasure now [a, b, c] m =
        [voiceStep now 0 a m, voiceStep now 1 b m, voiceStep now 2 c m] := by
      simp [scheduleMeasure, voiceStep, List.mapIdx_cons]
    rw [h, ih]

theorem buildAudio_voices (durationSec currentTime : ℚ) :
    (buildAudio durationSec currentTime).voices =
      [ voiceAfter (currentTime + 5/100) 0 (createVoice (-4)) (numMeasures durationSec),
        voiceAfter (currentTime + 5/100) 1 (createVoice 0) (numMeasures durationSec),
        voiceAfter (currentTime + 5/100) 2 (createVoice 5) (numMeasures durationSec) ] := by
  simp only [buildAudio, voiceAfter]
  exact foldl_scheduleMeasure _ _ _ _ _

theorem voiceAfter_succ (now : ℚ) (idx : ℕ) (v : Voice) (n : ℕ) :
    voiceAfter now idx v (n + 1) = voiceStep now idx (voiceAfter now idx v n) n := by
  simp [voiceAfter, List.range_succ]

theorem swellHeads_time_lt (now : ℚ) (n : ℕ) :
    ∀ e ∈ swellHeads now n, e.time < now + n * measure := by
  induction n with
  | zero => intro e he; simp [swellHeads] at he
  | succ n ih =>
    intro e he
    simp only [swellHeads, List.mem_append] at he
    rcases he with he | he
    · have := ih e he
      push_cast
      unfold measure at *
      linarith
    · simp only [swellHead, List.mem_cons, List.mem_singleton, List.not_mem_nil, or_false] at he
      push_cast
      unfold measure at *
      rcases he with rfl | rfl | rfl <;> simp only <;> linarith

theorem cancel_gainSchedule (now : ℚ) (n : ℕ) :
    (gainSchedule now n).filter (fun e => decide (e.time < now + n * measure)) =
      swellHeads now n := by
  cases n with
  | zero => rfl
  | succ n =>
    have h1 : (swellHeads now (n + 1)).filter
        (fun e => decide (e.time < now + ((n + 1 : ℕ) : ℚ) * measure)) =
        swellHeads now (n + 1) := by
      rw [List.filter_eq_self]
      intro e he
      simpa using swellHeads_time_lt now (n + 1) e he
    have h2 : ¬ (swellDecay now n).time < now + ((n + 1 : ℕ) : ℚ) * measure := by
      simp only [swellDecay]
      push_cast
      apply not_lt.mpr
      apply le_of_eq
      ring
    have h3 : [swellDecay now n].filter
        (fun e => decide (e.time < now + ((n + 1 : ℕ) : ℚ) * measure)) = [] := by
      rw [List.filter_cons_of_neg (by simpa using h2), List.filter_nil]
    simp only [gainSchedule, List.filter_append, h1, h3, List.append_nil]

theorem voiceAfter_gain (now : ℚ) (idx : ℕ) (v : Voice) (hv : v.gain.events = []) (n : ℕ) :
    (voiceAfter now idx v n).gain.events = gainSchedule now n := by
  induction n with
  | zero => simpa [voiceAfter, gainSchedule] using hv
  | succ n ih =>
    rw [voiceAfter_succ]
    simp only [voiceStep, scheduleVoice, AudioParam.cancelScheduledValues,
      AudioParam.setValueAtTime, AudioParam.exponentialRampToValueAtTime]
    rw [ih, cancel_gainSchedule]
    simp [gainSchedule, swellHeads, swellHead, swellDecay]


theorem voiceAfter_osc (now : ℚ) (idx : ℕ) (v : Voice) (n : ℕ) :
    (voiceAfter now idx v n).osc1.frequency.events = v.osc1.frequency.events ++
        (List.range n).map (fun m : ℕ =>
          (⟨.setValue, (chordAt m).1 * octave idx, now + m * measure⟩ : AutoEvent)) ∧
    (voiceAfter now idx v n).osc2.frequency.events = v.osc2.frequency.events ++
        (List.range n).map (fun m : ℕ =>
          (⟨.setValue, (chordAt m).2.1 * octave idx, now + m * measure⟩ : AutoEvent)) ∧
    (voiceAfter now idx v n).osc3.frequency.events = v.osc3.frequency.events ++
        (List.range n).map (fun m : ℕ =>
          (⟨.setValue, (chordAt m).2.2 * octave idx, now + m * measure⟩ : AutoEvent)) := by
  induction n with
  | zero => simp [voiceAfter]
  | succ n ih =>
    obtain ⟨h1, h2, h3⟩ := ih
    rw [voiceAfter_succ]
    simp only [voiceStep, scheduleVoice, AudioParam.setValueAtTime, h1, h2, h3,
      List.range_succ, List.map_append, List.map_cons, List.map_nil, List.append_assoc,
      and_self]

theorem chords_getElem (m : ℕ) : chords[m % 4]? = some (chordAt m) := by
  have h : m % 4 < chords.length := Nat.mod_lt m (by decide)
  rw [List.getElem?_eq_getElem h]
  rfl

theorem getElem?_range_map {α : Type} (f : ℕ → α) {m n : ℕ} (h : m < n) :
    ((List.range n).map f)[m]? = some (f m) := by
  simp [List.getElem?_map, List.getElem?_range h]

theorem swellHeads_ramp_value (now : ℚ) (n : ℕ) :
    ∀ e ∈ swellHeads now n, e.kind = .expRamp → e.value ≠ 1/10000 := by
  induction n with
  | zero => intro e he; simp [swellHeads] at he
  | succ n ih =>
    intro e he hk
    simp only [swellHeads, List.mem_append] at he
    rcases he with he | he
    · exact ih e he hk
    · simp only [swellHead, List.mem_cons, List.mem_singleton, List.not_mem_nil, or_false] at he
      rcases he with rfl | rfl | rfl
      · simp at hk
      · norm_num
      · norm_num

theorem swellHeads_mono (now : ℚ) {m n : ℕ} (h : m < n) :
    ∀ e ∈ swellHead now m, e ∈ swellHeads now n := by
  induction n with
  | zero => omega
  | succ n ih =>
    intro e he
    simp only [swellHeads, List.mem_append]
    rcases Nat.lt_succ_iff_lt_or_eq.mp h with h1 | h1
    · exact Or.inl (ih h1 e he)
    · subst h1; exact Or.inr he

/-- The decay ramp of a measure that is not the last one is absent from the
final gain schedule. -/
theorem swellDecay_not_mem (now : ℚ) {m n : ℕ} (h : m + 1 < n) :
    swellDecay now m ∉ gainSchedule now n := by
  cases n with
  | zero => omega
  | succ n =>
    simp only [gainSchedule, List.mem_append, List.mem_singleton, not_or]
    constructor
    · intro hmem
      exact swellHeads_ramp_value now (n + 1) _ hmem rfl rfl
    · intro heq
      have ht : (swellDecay now m).time = (swellDecay now n).time := by rw [heq]
      simp only [swellDecay, measure] at ht
      have : (m : ℚ) = n := by linarith
      have : m = n := by exact_mod_cast this
      omega

/-- The first three events of every measure are in the final gain schedule. -/
theorem swellHead_mem (now : ℚ) {m n : ℕ} (h : m < n) :
    ∀ e ∈ swellHead now m, e ∈ gainSchedule now n := by
  cases n with
  | zero => omega
  | succ n =>
    intro e he
    simp only [gainSchedule, List.mem_append]
    exact Or.inl (swellHeads_mono now h e he)

theorem buildAudio_master (durationSec currentTime : ℚ) :
    (buildAudio durationSec currentTime).master.events =
      [ ⟨.setValue, 1/10000, currentTime + 5/100⟩,
        ⟨.expRamp, 28/100, currentTime + 5/100 + 15/10⟩,
        ⟨.expRamp, 1/10000, currentTime + 5/100 + durationSec - 8/10⟩ ] := by
  simp [buildAudio, AudioParam.setValueAtTime, AudioParam.exponentialRampToValueAtTime]

theorem numMeasures_20 : numMeasures 20 = 5 := by
  norm_num [numMeasures, measure]
  rfl

theorem buildAudio_voice (durationSec currentTime : ℚ) {idx : ℕ} (hidx : idx < 3) :
    ∃ d, (buildAudio durationSec currentTime).voices[idx]? =
      some (voiceAfter (currentTime + 5/100) idx (createVoice d) (numMeasures durationSec)) := by
  rw [buildAudio_voices]
  interval_cases idx
  · exact ⟨-4, rfl⟩
  · exact ⟨0, rfl⟩
  · exact ⟨5, rfl⟩

/-! ## Claims C6 to C9 -/

/-- C6: the per-tick particle update first advances `(x, y)` by
`(cos a, sin a) * s * 0.4` and then wraps: an advanced `x` above `WIDTH + 10`
becomes `-10`, one below `-10` becomes `WIDTH + 10`, one within
`[-10, WIDTH + 10]` is kept as advanced; likewise `y` with `HEIGHT`. Radius,
angle and speed are untouched. -/
theorem stepParticle_wrap (cos sin : ℚ → ℚ) (p : Particle) :
    (WIDTH + 10 < p.x + cos p.a * p.s * (4/10) → (stepParticle cos sin p).x = -10) ∧
    (p.x + cos p.a * p.s * (4/10) < -10 → (stepParticle cos sin p).x = WIDTH + 10) ∧
    (-10 ≤ p.x + cos p.a * p.s * (4/10) → p.x + cos p.a * p.s * (4/10) ≤ WIDTH + 10 →
      (stepParticle cos sin p).x = p.x + cos p.a * p.s * (4/10)) ∧
    (HEIGHT + 10 < p.y + sin p.a * p.s * (4/10) → (stepParticle cos sin p).y = -10) ∧
    (p.y + sin p.a * p.s * (4/10) < -10 → (stepParticle cos sin p).y = HEIGHT + 10) ∧
    (-10 ≤ p.y + sin p.a * p.s * (4/10) → p.y + sin p.a * p.s * (4/10) ≤ HEIGHT + 10 →
      (stepParticle cos sin p).y = p.y + sin p.a * p.s * (4/10)) ∧
    (stepParticle cos sin p).r = p.r ∧ (stepParticle cos sin p).a = p.a ∧
    (stepParticle cos sin p).s = p.s := by
  simp only [stepParticle, WIDTH, HEIGHT]
  refine ⟨?_, ?_, ?_, ?_, ?_, ?_, trivial, trivial, trivial⟩
  · intro h; split_ifs <;> first | rfl | linarith
  · intro h; split_ifs <;> first | rfl | linarith
  · intro h1 h2; split_ifs <;> first | rfl | linarith
  · intro h; split_ifs <;> first | rfl | linarith
  · intro h; split_ifs <;> first | rfl | linarith
  · intro h1 h2; split_ifs <;> first | rfl | linarith

/-- C6 at concrete particles: one leaving to the right, one leaving at the
top, one staying inside. -/
theorem stepParticle_wrap_witness :
    (stepParticle (fun _ => 1) (fun _ => 0) ⟨1290, 100, 1, 0, 1⟩).x = -10 ∧
    (stepParticle (fun _ => 0) (fun _ => -1) ⟨5, -10, 1, 0, 1⟩).y = HEIGHT + 10 ∧
    (stepParticle (fun _ => 1) (fun _ => 0) ⟨100, 100, 1, 0, 1⟩).x = 100 + 4/10 :=
  ⟨(stepParticle_wrap (fun _ => 1) (fun _ => 0) ⟨1290, 100, 1, 0, 1⟩).1
      (by norm_num [WIDTH]),
   (stepParticle_wrap (fun _ => 0) (fun _ => -1) ⟨5, -10, 1, 0, 1⟩).2.2.2.2.1
      (by norm_num),
   by
    have h := (stepParticle_wrap (fun _ => 1) (fun _ => 0) ⟨100, 100, 1, 0, 1⟩).2.2.1
      (by norm_num) (by norm_num [WIDTH])
    rw [h]; norm_num⟩

/-- C7: for every measure `m < ceil(durationSec / 4)` and every voice
`idx ∈ {0, 1, 2}`, `buildAudio` schedules at the start of measure `m` the three
frequencies of `chords[m mod 4]`, times 0.5 for voice 0, 1 for voice 1 and 2 for
voice 2, on the three oscillators of the voice. -/
theorem buildAudio_oscillator_frequencies (durationSec currentTime : ℚ) (m idx : ℕ)
    (hm : m < numMeasures durationSec) (hidx : idx < 3) :
    ∃ v c, (buildAudio durationSec currentTime).voices[idx]? = some v ∧
      chords[m % 4]? = some c ∧
      v.osc1.frequency.events[m]? = some ⟨.setValue,
        c.1 * (if idx = 0 then 1/2 else if idx = 1 then 1 else 2),
        currentTime + 5/100 + m * 4⟩ ∧
      v.osc2.frequency.events[m]? = some ⟨.setValue,
        c.2.1 * (if idx = 0 then 1/2 else if idx = 1 then 1 else 2),
        currentTime + 5/100 + m * 4⟩ ∧
      v.osc3.frequency.events[m]? = some ⟨.setValue,
        c.2.2 * (if idx = 0 then 1/2 else if idx = 1 then 1 else 2),
        currentTime + 5/100 + m * 4⟩ := by
  obtain ⟨d, hd⟩ := buildAudio_voice durationSec currentTime hidx
  obtain ⟨h1, h2, h3⟩ :=
    voiceAfter_osc (currentTime + 5/100) idx (createVoice d) (numMeasures durationSec)
  have hoct : octave idx = (if idx = 0 then 1/2 else if idx = 1 then 1 else 2) := by
    interval_cases idx <;> simp [octave]
  refine ⟨_, chordAt m, hd, chords_getElem m, ?_, ?_, ?_⟩
  · rw [h1, ← hoct]
    simp only [createVoice, List.nil_append, measure]
    exact getElem?_range_map _ hm
  · rw [h2, ← hoct]
    simp only [createVoice, List.nil_append, measure]
    exact getElem?_range_map _ hm
  · rw [h3, ← hoct]
    simp only [createVoice, List.nil_append, measure]
    exact getElem?_range_map _ hm

/-- C7 at `buildAudio(20)`, second measure, lowest voice: the B flat triad an
octave down, scheduled at 4.05 s. -/
theorem buildAudio_oscillator_frequencies_witness :
    1 < numMeasures 20 ∧ (0:ℕ) < 3 ∧
    ∃ v c, (buildAudio 20 0).voices[0]? = some v ∧
      chords[1 % 4]? = some c ∧
      v.osc1.frequency.events[1]? = some ⟨.setValue,
        c.1 * (if (0:ℕ) = 0 then 1/2 else if (0:ℕ) = 1 then 1 else 2),
        0 + 5/100 + (1:ℕ) * 4⟩ ∧
      v.osc2.frequency.events[1]? = some ⟨.setValue,
        c.2.1 * (if (0:ℕ) = 0 then 1/2 else if (0:ℕ) = 1 then 1 else 2),
        0 + 5/100 + (1:ℕ) * 4⟩ ∧
      v.osc3.frequency.events[1]? = some ⟨.setValue,
        c.2.2 * (if (0:ℕ) = 0 then 1/2 else if (0:ℕ) = 1 then 1 else 2),
        0 + 5/100 + (1:ℕ) * 4⟩ :=
  ⟨by rw [numMeasures_20]; decide, by decide,
   buildAudio_oscillator_frequencies 20 0 1 0 (by rw [numMeasures_20]; decide) (by decide)⟩

/-- The gain schedule `buildAudio` leaves on every voice: for each measure
`m < numMeasures` the set at the measure start and the ramps to 0.28 and 0.08
are there, and the decay ramp to 0.0001 at the measure end is there exactly for
the last measure. -/
theorem buildAudio_gain_schedule (durationSec currentTime : ℚ) (m idx : ℕ)
    (hm : m < numMeasures durationSec) (hidx : idx < 3) :
    ∃ v, (buildAudio durationSec currentTime).voices[idx]? = some v ∧
      (∀ e ∈ swellHead (currentTime + 5/100) m, e ∈ v.gain.events) ∧
      (swellDecay (currentTime + 5/100) m ∈ v.gain.events ↔
        m + 1 = numMeasures durationSec) := by
  obtain ⟨d, hd⟩ := buildAudio_voice durationSec currentTime hidx
  refine ⟨_, hd, ?_, ?_⟩
  · rw [voiceAfter_gain _ _ _ rfl]
    exact swellHead_mem _ hm
  · rw [voiceAfter_gain _ _ _ rfl]
    constructor
    · intro hmem
      by_contra hne
      exact swellDecay_not_mem _ (by omega) hmem
    · intro heq
      rw [← heq]
      simp [gainSchedule]

/-- C8, the code at `buildAudio(20)`, voice 0, first measure: the set at
0.05 s and the ramps to 0.28 at 1.05 s and to 0.08 at 3.25 s are in the final
gain schedule, the decay ramp to 0.0001 at 4.05 s is not: scheduling the second
measure cancelled it. -/
theorem buildAudio_gain_decay_cancelled :
    ∃ v, (buildAudio 20 0).voices[0]? = some v ∧
      (⟨.setValue, 1/10000, 5/100⟩ : AutoEvent) ∈ v.gain.events ∧
      (⟨.expRamp, 28/100, 5/100 + 1⟩ : AutoEvent) ∈ v.gain.events ∧
      (⟨.expRamp, 8/100, 5/100 + 32/10⟩ : AutoEvent) ∈ v.gain.events ∧
      (⟨.expRamp, 1/10000, 5/100 + 4⟩ : AutoEvent) ∉ v.gain.events ∧
      v.gain.events.filter (fun e => decide (e.time = 5/100 + 4)) =
        [⟨.setValue, 1/10000, 5/100 + 4⟩] := by
  obtain ⟨d, hd⟩ := buildAudio_voice 20 0 (by decide : 0 < 3)
  refine ⟨_, hd, ?_⟩
  rw [voiceAfter_gain _ _ _ rfl, numMeasures_20]
  have h0 : swellHead (0 + 5/100) 0 =
      [⟨.setValue, 1/10000, 5/100⟩, ⟨.expRamp, 28/100, 5/100 + 1⟩,
       ⟨.expRamp, 8/100, 5/100 + 32/10⟩] := by
    simp [swellHead]
  have hmem := swellHead_mem (0 + 5/100) (by decide : 0 < 5)
  rw [h0] at hmem
  have hd0 : swellDecay (0 + 5/100) 0 = ⟨.expRamp, 1/10000, 5/100 + 4⟩ := by
    simp [swellDecay, measure]
  have hnot := swellDecay_not_mem (0 + 5/100) (by decide : 0 + 1 < 5)
  rw [hd0] at hnot
  refine ⟨hmem _ (by simp), hmem _ (by simp), hmem _ (by simp), hnot, ?_⟩
  simp only [gainSchedule, swellHeads, swellHead, swellDecay, measure]
  norm_num [List.filter_cons]

/-- C9 as stated fails at `buildAudio(20)`: at time `durationSec - 0.8` after
the start the master gain is 0.0001, not the nominal 0.28, and no ramp towards
0.0001 starts there. -/
theorem buildAudio_master_fadeout_counterexample :
    valueAtEvent (buildAudio 20 0).master.events (0 + 5/100 + 20 - 8/10) = some (1/10000) ∧
    ¬ valueAtEvent (buildAudio 20 0).master.events (0 + 5/100 + 20 - 8/10) = some (28/100) ∧
    ¬ ∃ r ∈ rampSpans (buildAudio 20 0).master.events,
        r.toValue = 1/10000 ∧ r.fromTime = 0 + 5/100 + 20 - 8/10 := by
  rw [buildAudio_master]
  refine ⟨?_, ?_, ?_⟩
  · norm_num [valueAtEvent, List.filter_cons]
  · norm_num [valueAtEvent, List.filter_cons]
  · norm_num [rampSpans]

/-- C9 amended: for `durationSec > 2.3` the master gain fades in from 0.0001
at the start to the nominal 0.28 at 1.5 s, and its fade-out to 0.0001 is the
ramp that starts there, at 1.5 s with the gain at 0.28, and ends 0.8 s before
the end of the duration, where the gain is 0.0001. -/
theorem buildAudio_master_envelope (durationSec currentTime : ℚ)
    (hd : 23/10 < durationSec) :
    rampSpans (buildAudio durationSec currentTime).master.events =
      [ ⟨currentTime + 5/100, 1/10000, currentTime + 5/100 + 15/10, 28/100⟩,
        ⟨currentTime + 5/100 + 15/10, 28/100,
          currentTime + 5/100 + durationSec - 8/10, 1/10000⟩ ] ∧
    currentTime + 5/100 + 15/10 < currentTime + 5/100 + durationSec - 8/10 ∧
    valueAtEvent (buildAudio durationSec currentTime).master.events
      (currentTime + 5/100) = some (1/10000) ∧
    valueAtEvent (buildAudio durationSec currentTime).master.events
      (currentTime + 5/100 + 15/10) = some (28/100) ∧
    valueAtEvent (buildAudio durationSec currentTime).master.events
      (currentTime + 5/100 + durationSec - 8/10) = some (1/10000) := by
  rw [buildAudio_master]
  have e1 : ¬ (currentTime + 5/100 + 15/10 = currentTime + 5/100) := by
    intro h; linarith
  have e2 : ¬ (currentTime + 5/100 + durationSec - 8/10 = currentTime + 5/100) := by
    intro h; linarith
  have e3 : ¬ (currentTime + 5/100 = currentTime + 5/100 + 15/10) := by
    intro h; linarith
  have e4 : ¬ (currentTime + 5/100 + durationSec - 8/10 = currentTime + 5/100 + 15/10) := by
    intro h; linarith
  have e5 : ¬ (currentTime + 5/100 = currentTime + 5/100 + durationSec - 8/10) := by
    intro h; linarith
  have e6 : ¬ (currentTime + 5/100 + 15/10 = currentTime + 5/100 + durationSec - 8/10) := by
    intro h; linarith
  refine ⟨by simp [rampSpans], by linarith, ?_, ?_, ?_⟩
  · simp [valueAtEvent, List.filter_cons, e1, e2]
  · simp [valueAtEvent, List.filter_cons, e3, e4]
  · simp [valueAtEvent, List.filter_cons, e5, e6]

/-- C9 amended, at `buildAudio(20)`: the fade-out runs from 1.55 s to 19.25 s. -/
theorem buildAudio_master_envelope_witness :
    (23/10 : ℚ) < 20 ∧
    rampSpans (buildAudio 20 0).master.events =
      [ ⟨0 + 5/100, 1/10000, 0 + 5/100 + 15/10, 28/100⟩,
        ⟨0 + 5/100 + 15/10, 28/100, 0 + 5/100 + 20 - 8/10, 1/10000⟩ ] :=
  ⟨by norm_num, (buildAudio_master_envelope 20 0 (by norm_num)).1⟩

/-! ## Session controller lemmas -/

theorem tickTime_elapsed (start : ℚ) (k : ℕ) : (tickTime start k - start) / 1000 = k / 60 := by
  unfold tickTime; ring

theorem frame_of_lt (start now : ℚ) (w : World) (h : (now - start) / 1000 < DURATION_SEC) :
    (frame start now w).rafQueue = w.rafQueue ++ [start] ∧
    (frame start now w).timeouts = w.timeouts ∧
    (frame start now w).frames = w.frames ++ [(now - start) / 1000] := by
  simp [frame, h]

theorem frame_of_not_lt (start now : ℚ) (w : World) (h : ¬ (now - start) / 1000 < DURATION_SEC) :
    (frame start now w).rafQueue = w.rafQueue ∧
    (frame start now w).timeouts = w.timeouts ++ [150] ∧
    (frame start now w).frames = w.frames ++ [(now - start) / 1000] := by
  simp [frame, h]

/-- A frame callback leaves the session state, the sink and the audio alone. -/
theorem frame_keeps (start now : ℚ) (w : World) :
    (frame start now w).state = w.state ∧ (frame start now w).stops = w.stops ∧
    (frame start now w).stopEvents = w.stopEvents ∧
    (frame start now w).recorders = w.recorders ∧
    (frame start now w).audioBuilds = w.audioBuilds := by
  unfold frame
  simp only
  split_ifs <;> simp

theorem runFrames_no_callback (nows : List ℚ) (w : World) (h : w.rafQueue = []) :
    runFrames nows w = w := by
  cases nows with
  | nil => rfl
  | cons now rest => simp [runFrames, h]

theorem runFrames_cons (start now : ℚ) (rest : List ℚ) (w : World) (h : w.rafQueue = [start]) :
    runFrames (now :: rest) w = runFrames rest (frame start now { w with rafQueue := [] }) := by
  simp [runFrames, h]

theorem runFrames_keeps (nows : List ℚ) (w : World) :
    (runFrames nows w).state = w.state ∧ (runFrames nows w).stops = w.stops ∧
    (runFrames nows w).stopEvents = w.stopEvents ∧
    (runFrames nows w).recorders = w.recorders ∧
    (runFrames nows w).audioBuilds = w.audioBuilds := by
  induction nows generalizing w with
  | nil => simp [runFrames]
  | cons now rest ih =>
    cases hq : w.rafQueue with
    | nil => rw [runFrames_no_callback _ _ hq]; simp
    | cons start queue =>
      have hstep : runFrames (now :: rest) w =
          runFrames rest (frame start now { w with rafQueue := queue }) := by
        simp [runFrames, hq]
      rw [hstep]
      obtain ⟨a1, a2, a3, a4, a5⟩ := ih (frame start now { w with rafQueue := queue })
      obtain ⟨b1, b2, b3, b4, b5⟩ := frame_keeps start now { w with rafQueue := queue }
      exact ⟨a1.trans b1, a2.trans b2, a3.trans b3, a4.trans b4, a5.trans b5⟩

theorem ticks_succ (start : ℚ) (k n : ℕ) :
    ticks start k (n + 1) = tickTime start k :: ticks start (k + 1) n := by
  simp [ticks, List.range'_succ]

/-- From tick `k ≤ 1200` on, with one frame callback pending and enough ticks
to come, the loop runs through tick 1200 and ends there. -/
theorem runFrames_ticks (start : ℚ) (len k : ℕ) (u : World)
    (hq : u.rafQueue = [start]) (hk : k ≤ 1200) (hlen : 1200 < k + len) :
    (runFrames (ticks start k len) u).rafQueue = [] ∧
    (runFrames (ticks start k len) u).timeouts = u.timeouts ++ [150] ∧
    (runFrames (ticks start k len) u).frames =
      u.frames ++ (List.range' k (1201 - k)).map (fun j : ℕ => (j : ℚ) / 60) := by
  induction len generalizing k u with
  | zero => omega
  | succ len ih =>
    rw [ticks_succ, runFrames_cons start _ _ u hq]
    rcases Nat.lt_or_eq_of_le hk with hlt | heq
    · have ht : (tickTime start k - start) / 1000 < DURATION_SEC := by
        rw [tickTime_elapsed, DURATION_SEC, div_lt_iff₀ (by norm_num)]
        have : (k : ℚ) < 1200 := by exact_mod_cast hlt
        linarith
      obtain ⟨f1, f2, f3⟩ := frame_of_lt start (tickTime start k) { u with rafQueue := [] } ht
      obtain ⟨r1, r2, r3⟩ := ih (k + 1) (frame start (tickTime start k) { u with rafQueue := [] })
        (by simpa using f1) (by omega) (by omega)
      refine ⟨r1, ?_, ?_⟩
      · rw [r2, f2]
      · rw [r3, f3, tickTime_elapsed]
        have hsplit : 1201 - k = (1201 - (k + 1)) + 1 := by omega
        rw [hsplit, List.range'_succ]
        simp
    · subst heq
      have ht : ¬ (tickTime start 1200 - start) / 1000 < DURATION_SEC := by
        rw [tickTime_elapsed, DURATION_SEC]; norm_num
      obtain ⟨f1, f2, f3⟩ :=
        frame_of_not_lt start (tickTime start 1200) { u with rafQueue := [] } ht
      rw [runFrames_no_callback _ _ (by simpa using f1)]
      refine ⟨by simpa using f1, by simpa using f2, ?_⟩
      rw [f3, tickTime_elapsed]
      simp

/-- The frames a run paints, with one frame callback pending: every
timestamp before the first whose elapsed time reaches the duration, then that
one, and nothing after it. Up to there the callback stays pending; that tick
leaves none pending and queues the one timeout. -/
theorem runFrames_painted (start : ℚ) (nows : List ℚ) (u : World)
    (hq : u.rafQueue = [start]) :
    (runFrames nows u).frames =
      u.frames ++
        (nows.takeWhile (fun now => decide ((now - start) / 1000 < DURATION_SEC)) ++
          ((nows.dropWhile
            (fun now => decide ((now - start) / 1000 < DURATION_SEC))).head?).toList).map
          (fun now => (now - start) / 1000) ∧
    ((nows.dropWhile (fun now => decide ((now - start) / 1000 < DURATION_SEC))).head? = none →
      (runFrames nows u).rafQueue = [start] ∧ (runFrames nows u).timeouts = u.timeouts) ∧
    (∀ last,
      (nows.dropWhile (fun now => decide ((now - start) / 1000 < DURATION_SEC))).head?
        = some last →
      (runFrames nows u).rafQueue = [] ∧ (runFrames nows u).timeouts = u.timeouts ++ [150]) := by
  induction nows generalizing u with
  | nil => simp [runFrames, hq]
  | cons now rest ih =>
    rw [runFrames_cons start _ _ u hq]
    by_cases ht : (now - start) / 1000 < DURATION_SEC
    · obtain ⟨f1, f2, f3⟩ := frame_of_lt start now { u with rafQueue := [] } ht
      obtain ⟨e1, e2, e3⟩ := ih (frame start now { u with rafQueue := [] }) (by simpa using f1)
      have htw : (now :: rest).takeWhile
          (fun now => decide ((now - start) / 1000 < DURATION_SEC)) =
          now :: rest.takeWhile (fun now => decide ((now - start) / 1000 < DURATION_SEC)) := by
        rw [List.takeWhile_cons]; simp [ht]
      have hdw : (now :: rest).dropWhile
          (fun now => decide ((now - start) / 1000 < DURATION_SEC)) =
          rest.dropWhile (fun now => decide ((now - start) / 1000 < DURATION_SEC)) := by
        rw [List.dropWhile_cons]; simp [ht]
      rw [htw, hdw]
      refine ⟨?_, ?_, ?_⟩
      · rw [e1, f3]; simp
      · intro hnone
        obtain ⟨a, b⟩ := e2 hnone
        exact ⟨a, by rw [b, f2]⟩
      · intro last hlast
        obtain ⟨a, b⟩ := e3 last hlast
        exact ⟨a, by rw [b, f2]⟩
    · obtain ⟨f1, f2, f3⟩ := frame_of_not_lt start now { u with rafQueue := [] } ht
      have htw : (now :: rest).takeWhile
          (fun now => decide ((now - start) / 1000 < DURATION_SEC)) = [] := by
        rw [List.takeWhile_cons]; simp [ht]
      have hdw : (now :: rest).dropWhile
          (fun now => decide ((now - start) / 1000 < DURATION_SEC)) = now :: rest := by
        rw [List.dropWhile_cons]; simp [ht]
      rw [runFrames_no_callback _ _ (by simpa using f1), htw, hdw]
      refine ⟨?_, ?_, ?_⟩
      · rw [f3]; simp
      · intro hnone; simp at hnone
      · intro last _
        exact ⟨by simpa using f1, by simpa using f2⟩

theorem dropWhile_head_not {α : Type} (p : α → Bool) (l : List α) (a : α)
    (h : (l.dropWhile p).head? = some a) : p a = false ∧ a ∈ l := by
  induction l with
  | nil => simp at h
  | cons b l ih =>
    by_cases hb : p b = true
    · rw [List.dropWhile_cons_of_pos hb] at h
      exact ⟨(ih h).1, List.mem_cons_of_mem _ (ih h).2⟩
    · rw [List.dropWhile_cons_of_neg hb] at h
      simp only [List.head?_cons, Option.some.injEq] at h
      subst h
      exact ⟨by simpa using hb, List.mem_cons_self _ _⟩

/-- What `generate` does on a page that is not recording, whatever the audio
outcome. -/
theorem generate_idle (host : Host) (w : World) (hrec : w.state.recording = false) :
    (generate host w).rafQueue = w.rafQueue ++ [host.now] ∧
    (generate host w).timeouts = w.timeouts ∧
    (generate host w).frames = w.frames ∧
    (generate host w).stops = w.stops ∧
    (generate host w).stopEvents = w.stopEvents ∧
    (generate host w).state.recording = true ∧
    (generate host w).state.chunks = [] ∧
    (generate host w).state.startTime = host.now ∧
    (generate host w).recorders = w.recorders + 1 ∧
    ∃ r, (generate host w).state.recorder = some r ∧ r.state = .recording := by
  unfold generate
  rw [if_neg (by simp [hrec])]
  cases tryBuildAudio host.audioTime DURATION_SEC <;> simp

theorem fireTimeouts_single (w : World) (d : ℚ) (h : w.timeouts = [d]) :
    fireTimeouts w = stopTimeout { w with timeouts := [] } := by
  simp [fireTimeouts, h]

theorem stopTimeout_recording (w : World) (r : MediaRecorder)
    (hr : w.state.recorder = some r) (hs : r.state = .recording) :
    (stopTimeout w).stops = w.stops + 1 ∧
    (stopTimeout w).stopEvents = w.stopEvents + 1 ∧
    (stopTimeout w).state.recording = false ∧
    (stopTimeout w).state.recorder = some { r with state := .inactive } ∧
    (stopTimeout w).rafQueue = w.rafQueue ∧
    (stopTimeout w).timeouts = w.timeouts := by
  simp [stopTimeout, hr, hs]

/-! ## Claims C3, C4, C5, C10 -/

/-- C3: with the clock advancing in 1/60 s steps from `t = 0`, every tick
with `t < 20` schedules exactly one further tick and no stop; tick 1200, the
first with `t ≥ 20` (`t = 20`), schedules no further tick and exactly one
delayed stop. A session started on a page with nothing pending and given at
least 1201 ticks paints ticks 0 to 1200 and then has no callback pending and
one timeout; firing it issues exactly one stop of the capture sink and leaves
`state.recording` false. -/
theorem render_loop_terminates (host : Host) (w : World) (n : ℕ)
    (hrec : w.state.recording = false) (hq : w.rafQueue = []) (hto : w.timeouts = [])
    (hn : 1201 ≤ n) :
    (∀ (k : ℕ) (u : World), k < 1200 →
      (frame host.now (tickTime host.now k) u).rafQueue = u.rafQueue ++ [host.now] ∧
      (frame host.now (tickTime host.now k) u).timeouts = u.timeouts ∧
      (frame host.now (tickTime host.now k) u).stops = u.stops) ∧
    (tickTime host.now 1200 - host.now) / 1000 = 20 ∧
    (∀ u : World,
      (frame host.now (tickTime host.now 1200) u).rafQueue = u.rafQueue ∧
      (frame host.now (tickTime host.now 1200) u).timeouts = u.timeouts ++ [150] ∧
      (frame host.now (tickTime host.now 1200) u).stops = u.stops) ∧
    (runFrames (ticks host.now 0 n) (generate host w)).frames =
      w.frames ++ (List.range 1201).map (fun k : ℕ => (k : ℚ) / 60) ∧
    (runFrames (ticks host.now 0 n) (generate host w)).rafQueue = [] ∧
    (runFrames (ticks host.now 0 n) (generate host w)).timeouts = [150] ∧
    (runFrames (ticks host.now 0 n) (generate host w)).stops = w.stops ∧
    (runFrames (ticks host.now 0 n) (generate host w)).state.recording = true ∧
    (fireTimeouts (runFrames (ticks host.now 0 n) (generate host w))).stops = w.stops + 1 ∧
    (fireTimeouts (runFrames (ticks host.now 0 n) (generate host w))).stopEvents =
      w.stopEvents + 1 ∧
    (fireTimeouts (runFrames (ticks host.now 0 n) (generate host w))).state.recording = false ∧
    (fireTimeouts (runFrames (ticks host.now 0 n) (generate host w))).rafQueue = [] ∧
    (fireTimeouts (runFrames (ticks host.now 0 n) (generate host w))).timeouts = [] := by
  obtain ⟨g1, g2, g3, g4, g5, g6, _, _, _, r, g7, g8⟩ := generate_idle host w hrec
  rw [hq] at g1
  obtain ⟨r1, r2, r3⟩ := runFrames_ticks host.now n 0 (generate host w)
    (by simpa using g1) (by omega) (by omega)
  obtain ⟨k1, k2, k3, _, _⟩ := runFrames_keeps (ticks host.now 0 n) (generate host w)
  rw [g2, hto] at r2
  have hfire := fireTimeouts_single _ _ (by simpa using r2)
  obtain ⟨s1, s2, s3, _, s5, s6⟩ := stopTimeout_recording
    { runFrames (ticks host.now 0 n) (generate host w) with timeouts := [] } r
    (by simpa [k1] using g7) g8
  refine ⟨?_, ?_, ?_, ?_, r1, by simpa using r2, by rw [k2, g4], by rw [k1, g6],
    ?_, ?_, ?_, ?_, ?_⟩
  · intro k u hk
    have ht : (tickTime host.now k - host.now) / 1000 < DURATION_SEC := by
      rw [tickTime_elapsed, DURATION_SEC, div_lt_iff₀ (by norm_num)]
      have : (k : ℚ) < 1200 := by exact_mod_cast hk
      linarith
    obtain ⟨f1, f2, _⟩ := frame_of_lt host.now (tickTime host.now k) u ht
    exact ⟨f1, f2, (frame_keeps _ _ u).2.1⟩
  · rw [tickTime_elapsed]; norm_num
  · intro u
    have ht : ¬ (tickTime host.now 1200 - host.now) / 1000 < DURATION_SEC := by
      rw [tickTime_elapsed, DURATION_SEC]; norm_num
    obtain ⟨f1, f2, _⟩ := frame_of_not_lt host.now (tickTime host.now 1200) u ht
    exact ⟨f1, f2, (frame_keeps _ _ u).2.1⟩
  · rw [r3, g3, List.range_eq_range']
  · rw [hfire, s1]; simp [k2, g4]
  · rw [hfire, s2]; simp [k3, g5]
  · rw [hfire, s3]
  · rw [hfire, s5]; simpa using r1
  · rw [hfire, s6]

/-- C3 on a fresh page with 1300 ticks of the 1/60 s clock: one stop is
issued and the session is no longer recording. -/
theorem render_loop_terminates_witness :
    (fireTimeouts (runFrames (ticks demoHost.now 0 1300) (generate demoHost idleWorld))).stops
      = idleWorld.stops + 1 ∧
    (fireTimeouts (runFrames (ticks demoHost.now 0 1300)
      (generate demoHost idleWorld))).state.recording = false ∧
    (runFrames (ticks demoHost.now 0 1300) (generate demoHost idleWorld)).rafQueue = [] :=
  have h := render_loop_terminates demoHost idleWorld 1300 rfl rfl rfl (by decide)
  ⟨h.2.2.2.2.2.2.2.2.1, h.2.2.2.2.2.2.2.2.2.2.1, h.2.2.2.2.1⟩

/-- C4: while `state.recording` is true, `generate()` returns without
changing anything: the chunk buffer is not reset, no recorder is created,
`startTime` is unchanged and no audio graph is built. -/
theorem generate_noop_while_recording (host : Host) (w : World)
    (hrec : w.state.recording = true) :
    generate host w = w ∧
    (generate host w).state.chunks = w.state.chunks ∧
    (generate host w).state.recorder = w.state.recorder ∧
    (generate host w).recorders = w.recorders ∧
    (generate host w).state.startTime = w.state.startTime ∧
    (generate host w).audioBuilds = w.audioBuilds ∧
    (generate host w).audio = w.audio := by
  have h : generate host w = w := by simp [generate, hrec]
  rw [h]
  simp

/-- C4 on a session that has received a chunk: a second `generate()` keeps
the chunk and builds nothing. -/
theorem generate_noop_while_recording_witness :
    (ondataavailable 7 (generate demoHost idleWorld)).state.recording = true ∧
    generate silentHost (ondataavailable 7 (generate demoHost idleWorld)) =
      ondataavailable 7 (generate demoHost idleWorld) ∧
    (generate silentHost (ondataavailable 7 (generate demoHost idleWorld))).state.chunks = [7] :=
  have hrec : (ondataavailable 7 (generate demoHost idleWorld)).state.recording = true := by
    simp [ondataavailable, generate, idleWorld, demoHost, tryBuildAudio]
  have h := generate_noop_while_recording silentHost
    (ondataavailable 7 (generate demoHost idleWorld)) hrec
  ⟨hrec, h.1, by
    rw [h.1]
    simp [ondataavailable, generate, idleWorld, demoHost, tryBuildAudio]⟩

/-- C5 as stated fails: a single callback 25 s after the session start (not
earlier than the start, trivially non-decreasing) is painted with `t = 25`,
above `DURATION_SEC`. -/
theorem frame_elapsed_counterexample :
    (∀ now ∈ [(25000 : ℚ)], demoHost.now ≤ now) ∧
    List.Pairwise (fun a b : ℚ => a ≤ b) [(25000 : ℚ)] ∧
    (runFrames [25000] (generate demoHost idleWorld)).frames = [25] ∧
    ¬ ∀ t ∈ (runFrames [25000] (generate demoHost idleWorld)).frames,
        0 ≤ t ∧ t ≤ DURATION_SEC := by
  have hf : (runFrames [25000] (generate demoHost idleWorld)).frames = [25] := by
    simp [runFrames, generate, idleWorld, demoHost, tryBuildAudio, frame, DURATION_SEC]
    norm_num
  refine ⟨by simp [demoHost], by simp, hf, ?_⟩
  rw [hf]
  simp [DURATION_SEC]
  norm_num

/-- C5 amended: in a session whose callback timestamps are not earlier than
the session start, the elapsed times `t = (now - start)/1000` passed to
`drawTimeline` are exactly those of the timestamps before the first one with
`t ≥ DURATION_SEC`, followed by that one when there is one. Every tick before
it has `0 ≤ t < DURATION_SEC` and leaves the frame callback pending; that tick,
the last one painted, has `t ≥ DURATION_SEC`, unclamped, and ends the loop: no
callback is pending after it and the stop timeout is queued. -/
theorem frame_elapsed_range (host : Host) (w : World) (nows : List ℚ)
    (hrec : w.state.recording = false) (hq : w.rafQueue = [])
    (hnows : ∀ now ∈ nows, host.now ≤ now) :
    (runFrames nows (generate host w)).frames =
      w.frames ++
        (nows.takeWhile (fun now => decide ((now - host.now) / 1000 < DURATION_SEC)) ++
          ((nows.dropWhile
            (fun now => decide ((now - host.now) / 1000 < DURATION_SEC))).head?).toList).map
          (fun now => (now - host.now) / 1000) ∧
    (∀ now ∈ nows.takeWhile (fun now => decide ((now - host.now) / 1000 < DURATION_SEC)),
      0 ≤ (now - host.now) / 1000 ∧ (now - host.now) / 1000 < DURATION_SEC) ∧
    (∀ last,
      (nows.dropWhile (fun now => decide ((now - host.now) / 1000 < DURATION_SEC))).head?
        = some last →
      DURATION_SEC ≤ (last - host.now) / 1000 ∧
      (runFrames nows (generate host w)).rafQueue = [] ∧
      (runFrames nows (generate host w)).timeouts = w.timeouts ++ [150]) ∧
    ((nows.dropWhile (fun now => decide ((now - host.now) / 1000 < DURATION_SEC))).head?
        = none →
      (runFrames nows (generate host w)).rafQueue = [host.now] ∧
      (runFrames nows (generate host w)).timeouts = w.timeouts) := by
  obtain ⟨g1, g2, g3, _⟩ := generate_idle host w hrec
  rw [hq] at g1
  obtain ⟨e1, e2, e3⟩ :=
    runFrames_painted host.now nows (generate host w) (by simpa using g1)
  refine ⟨by rw [e1, g3], ?_, ?_, ?_⟩
  · intro now hmem
    have hlt := List.mem_takeWhile_imp hmem
    have hge := hnows now (List.takeWhile_subset _ hmem)
    refine ⟨?_, by simpa using hlt⟩
    apply div_nonneg <;> linarith
  · intro last hlast
    obtain ⟨a, b⟩ := e3 last hlast
    have hnot := (dropWhile_head_not _ nows last hlast).1
    exact ⟨by simpa using hnot, a, by rw [b, g2]⟩
  · intro hnone
    obtain ⟨a, b⟩ := e2 hnone
    exact ⟨a, by rw [b, g2]⟩

/-- C5 amended, on four callbacks at 0 s, 19.99 s, 20.009 s and 20.026 s: the
first three are painted, the third with `t` above the duration, the fourth is
not. -/
theorem frame_elapsed_range_witness :
    (∀ now ∈ [(0 : ℚ), 19990, 20009, 20026], demoHost.now ≤ now) ∧
    (runFrames [0, 19990, 20009, 20026] (generate demoHost idleWorld)).frames =
      [0, 1999/100, 20009/1000] ∧
    (runFrames [0, 19990, 20009, 20026] (generate demoHost idleWorld)).rafQueue = [] ∧
    (runFrames [0, 19990, 20009, 20026] (generate demoHost idleWorld)).timeouts = [150] :=
  have hn : ∀ now ∈ [(0 : ℚ), 19990, 20009, 20026], demoHost.now ≤ now := by
    intro now h
    simp only [List.mem_cons, List.mem_singleton, List.not_mem_nil, or_false] at h
    rcases h with rfl | rfl | rfl | rfl <;> norm_num [demoHost]
  have h := frame_elapsed_range demoHost idleWorld [0, 19990, 20009, 20026] rfl rfl hn
  have hd : ([(0 : ℚ), 19990, 20009, 20026].dropWhile
      (fun now => decide ((now - demoHost.now) / 1000 < DURATION_SEC))).head? = some 20009 := by
    norm_num [List.dropWhile, demoHost, DURATION_SEC]
  have ht : [(0 : ℚ), 19990, 20009, 20026].takeWhile
      (fun now => decide ((now - demoHost.now) / 1000 < DURATION_SEC)) = [0, 19990] := by
    norm_num [List.takeWhile, demoHost, DURATION_SEC]
  ⟨hn, by
    rw [h.1, hd, ht]
    norm_num [idleWorld, demoHost],
   (h.2.2.1 20009 hd).2.1, (h.2.2.1 20009 hd).2.2⟩

/-- C10: when `buildAudio` throws, `generate()` on a page that is not
recording does not abort: it creates the recorder and starts it, resets the
chunk buffer, sets `recording`, records the start time and requests the first
frame; the stream handed to the recorder is exactly the video tracks of the
canvas stream and holds no audio track. -/
theorem generate_survives_audio_failure (host : Host) (w : World) (e : String)
    (hrec : w.state.recording = false)
    (hfail : tryBuildAudio host.audioTime DURATION_SEC = .error e) :
    (generate host w).state.recorder =
      some { stream := getVideoTracks host.canvasStream,
             mimeType := "video/webm;codecs=vp9,opus", state := .recording } ∧
    (generate host w).recorders = w.recorders + 1 ∧
    (generate host w).state.chunks = [] ∧
    (generate host w).state.recording = true ∧
    (generate host w).state.startTime = host.now ∧
    (generate host w).rafQueue = w.rafQueue ++ [host.now] ∧
    (generate host w).audio = none ∧
    (generate host w).audioBuilds = w.audioBuilds ∧
    (generate host w).status = .audioFailed ∧
    (∀ tr ∈ getVideoTracks host.canvasStream,
      tr ∈ host.canvasStream ∧ tr.kind = .video ∧ tr.kind ≠ .audio) := by
  unfold generate
  rw [if_neg (by simp [hrec]), hfail]
  refine ⟨rfl, rfl, rfl, rfl, rfl, rfl, rfl, rfl, rfl, ?_⟩
  intro tr htr
  simp only [getVideoTracks, List.mem_filter, decide_eq_true_eq] at htr
  exact ⟨htr.1, htr.2, by rw [htr.2]; decide⟩

/-- C10 on a host without an audio engine whose canvas stream has one video
track: the recorder gets that one track. -/
theorem generate_survives_audio_failure_witness :
    idleWorld.state.recording = false ∧
    tryBuildAudio silentHost.audioTime DURATION_SEC =
      .error "AudioContext is not a constructor" ∧
    (generate silentHost idleWorld).state.recorder =
      some { stream := getVideoTracks silentHost.canvasStream,
             mimeType := "video/webm;codecs=vp9,opus", state := .recording } ∧
    getVideoTracks silentHost.canvasStream = [⟨.video, "canvas"⟩] :=
  ⟨rfl, rfl,
   (generate_survives_audio_failure silentHost idleWorld
      "AudioContext is not a constructor" rfl rfl).1,
   by simp [getVideoTracks, silentHost]⟩

end App
